import Mathlib

/-!
Shallow embedding of the core of `src/main.rs` (zevorn/enjoy): a tokenizer
(`parse_number`, `parse_expression_token`) and a stack-based infix evaluator
(`evaluate_expression`) over 64-bit signed integers.

Modelling conventions:
* Rust `i64` values are `Int`s; where Rust arithmetic wraps (release-profile
  `+` and `*`) the model wraps explicitly with `wrap64`; Rust `i64` division
  `left / right` panics on the overflow pair `i64::MIN / -1` in every build
  profile, modelled by the `Res.panic` outcome.
* Rust `Vec` stacks are lists whose head is the top of the stack.
* Fallible Rust code returning `Result<_, String>` becomes `Res`/`Except`
  with the source's (Chinese) error strings kept verbatim.
-/

namespace Enjoy

/-- Smallest `i64` value, `-2^63`. -/
def i64Min : Int := -(2 ^ 63)

/-- Largest `i64` value, `2^63 - 1`. -/
def i64Max : Int := 2 ^ 63 - 1

/-- `x` is representable as a Rust `i64`. -/
def In64 (x : Int) : Prop := i64Min ≤ x ∧ x ≤ i64Max

instance (x : Int) : Decidable (In64 x) := by unfold In64; infer_instance

/-- Two's-complement wrap of an integer into the `i64` range. -/
def wrap64 (x : Int) : Int := (x + 2 ^ 63) % 2 ^ 64 - 2 ^ 63

/-- Rust `i64` addition (release-profile wrapping semantics). -/
def i64add (a b : Int) : Int := wrap64 (a + b)

/-- Rust `i64` multiplication (release-profile wrapping semantics). -/
def i64mul (a b : Int) : Int := wrap64 (a * b)

/-- Outcome of running a piece of the Rust evaluator: a normal value, an
`Err` carried as the source's message string, or a process panic. -/
inductive Res (α : Type) where
  | ok : α → Res α
  | err : String → Res α
  | panic : Res α
  deriving DecidableEq, Repr

/-- Rust `left / right` on `i64` with `right` already known nonzero:
truncating division, except that the overflow pair `i64::MIN / -1` panics. -/
def i64div (left right : Int) : Res Int :=
  if left = i64Min ∧ right = -1 then .panic else .ok (left.tdiv right)

/-- Rust `char::to_digit(radix)`. -/
def toDigit (radix : Nat) (c : Char) : Option Nat :=
  let v : Option Nat :=
    if '0' ≤ c ∧ c ≤ '9' then some (c.toNat - '0'.toNat)
    else if 'a' ≤ c ∧ c ≤ 'z' then some (c.toNat - 'a'.toNat + 10)
    else if 'A' ≤ c ∧ c ≤ 'Z' then some (c.toNat - 'A'.toNat + 10)
    else none
  match v with
  | some d => if d < radix then some d else none
  | none => none

/-- Digit-by-digit accumulation of `i64::from_str_radix`'s loop (the
magnitude as an unbounded natural; the range check is done afterwards,
which is equivalent because checked accumulation of a nonnegative value
overflows exactly when the final value is out of range). -/
def parseDigits (radix : Nat) : List Char → Nat → Option Nat
  | [], acc => some acc
  | c :: cs, acc =>
    match toDigit radix c with
    | some d => parseDigits radix cs (acc * radix + d)
    | none => none

/-- Rust `i64::from_str_radix(s, radix)` (also the semantics of
`s.parse::<i64>()` at radix 10): an optional sign, then one or more digits
of the radix consuming the whole string, with an `i64` range check. -/
def fromStrRadix (radix : Nat) (s : List Char) : Option Int :=
  let signDigits : Bool × List Char :=
    match s with
    | '-' :: rest => (true, rest)
    | '+' :: rest => (false, rest)
    | _ => (false, s)
  match signDigits with
  | (neg, digits) =>
    if digits = [] then none
    else
      match parseDigits radix digits 0 with
      | none => none
      | some n =>
        if neg then
          if (n : Int) ≤ 2 ^ 63 then some (-(n : Int)) else none
        else
          if (n : Int) ≤ i64Max then some (n : Int) else none

/-- Embeds `parse_number` (src/main.rs lines 7–15): strip a `0x` prefix and
parse base-16, else strip `0b` and parse base-2, else parse base-10. -/
def parse_number (s : List Char) : Option Int :=
  match s with
  | '0' :: 'x' :: hex => fromStrRadix 16 hex
  | '0' :: 'b' :: bin => fromStrRadix 2 bin
  | _ => fromStrRadix 10 s

/-- Embeds the Rust `ExprToken` enum. -/
inductive ExprToken where
  | Number : Int → ExprToken
  | Operator : Char → ExprToken
  | LeftParen : ExprToken
  | RightParen : ExprToken
  deriving DecidableEq, Repr

/-- Embeds `parse_expression_token` (src/main.rs lines 27–39). The Rust
operator test `"+x/".contains(input) && input.len() == 1` holds exactly for
the three length-1 substrings `"+"`, `"x"`, `"/"` of `"+x/"`. -/
def parse_expression_token (input : List Char) : Except String ExprToken :=
  match parse_number input with
  | some num => .ok (.Number num)
  | none =>
    if input = ['+'] ∨ input = ['x'] ∨ input = ['/'] then
      .ok (.Operator (input.headD ' '))
    else if input = ['['] then .ok .LeftParen
    else if input = [']'] then .ok .RightParen
    else .error ("无效的表达式部分: " ++ String.mk input)

/-- The body applied to a popped high-precedence operator (`'x'` or `'/'`)
inside the in-pass reduction loop (src/main.rs lines 57–66); the wildcard
arm is `unreachable!()`, i.e. a panic. -/
def applyHigh (op : Char) (left right : Int) : Res Int :=
  if op = 'x' then .ok (i64mul left right)
  else if op = '/' then
    if right = 0 then .err "除零错误" else i64div left right
  else .panic

/-- The operator application of the final drain (src/main.rs lines 112–122),
covering `'+'` as well; the wildcard arm is `unreachable!()`. -/
def applyOp (op : Char) (left right : Int) : Res Int :=
  if op = '+' then .ok (i64add left right)
  else if op = 'x' then .ok (i64mul left right)
  else if op = '/' then
    if right = 0 then .err "除零错误" else i64div left right
  else .panic

/-- Embeds the `while let Some(prev_op) = operators.last()` reduction loop
run on reading an `Operator` token (src/main.rs lines 53–72): pop and apply
pending `'x'`/`'/'` operators (right operand popped first, then the left),
stopping at the first operator that is neither. -/
def reduceHigher : List Int → List Char → Res (List Int × List Char)
  | values, [] => .ok (values, [])
  | values, prevOp :: ops =>
    if prevOp = 'x' ∨ prevOp = '/' then
      match values with
      | right :: left :: vrest =>
        match applyHigh prevOp left right with
        | .ok r => reduceHigher (r :: vrest) ops
        | .err e => .err e
        | .panic => .panic
      | [_] => .err "缺少左操作数"
      | [] => .err "缺少右操作数"
    else .ok (values, prevOp :: ops)

/-- Embeds the final drain `while let Some(op) = operators.pop()`
(src/main.rs lines 109–124). -/
def drainOps : List Int → List Char → Res (List Int)
  | values, [] => .ok values
  | values, op :: ops =>
    match values with
    | right :: left :: vrest =>
      match applyOp op left right with
      | .ok r => drainOps (r :: vrest) ops
      | .err e => .err e
      | .panic => .panic
    | [_] => .err "缺少左操作数"
    | [] => .err "缺少右操作数"

/-- Embeds the bracket-matching scan (src/main.rs lines 77–89): given the
tokens after a `LeftParen` and the current depth (`paren_count`, 1 at the
start), return the tokens strictly before the matching `RightParen` and the
tokens after it, or `none` when the sequence ends first. -/
def splitBracket : List ExprToken → Nat → Option (List ExprToken × List ExprToken)
  | [], _ => none
  | ExprToken.Number n :: ts, depth =>
    match splitBracket ts depth with
    | some (sub, rest) => some (ExprToken.Number n :: sub, rest)
    | none => none
  | ExprToken.Operator c :: ts, depth =>
    match splitBracket ts depth with
    | some (sub, rest) => some (ExprToken.Operator c :: sub, rest)
    | none => none
  | ExprToken.LeftParen :: ts, depth =>
    match splitBracket ts (depth + 1) with
    | some (sub, rest) => some (ExprToken.LeftParen :: sub, rest)
    | none => none
  | ExprToken.RightParen :: ts, depth =>
    if depth = 1 then some ([], ts)
    else
      match splitBracket ts (depth - 1) with
      | some (sub, rest) => some (ExprToken.RightParen :: sub, rest)
      | none => none

/-- A successful bracket scan splits its input as
`sub ++ RightParen :: after` (stated as a `def`-style proof so it is
available to the termination argument of `evalLoop` below). -/
def splitBracket_split : ∀ (ts : List ExprToken) (d : Nat)
    (sub after : List ExprToken), splitBracket ts d = some (sub, after) →
    ts = sub ++ ExprToken.RightParen :: after := by
  intro ts
  induction ts with
  | nil => intro d sub after h; simp [splitBracket] at h
  | cons t ts ih =>
    intro d sub after h
    cases t with
    | Number n =>
      rw [splitBracket] at h
      cases hs : splitBracket ts d with
      | none => simp [hs] at h
      | some p =>
        obtain ⟨s, r⟩ := p
        simp only [hs, Option.some.injEq, Prod.mk.injEq] at h
        obtain ⟨rfl, rfl⟩ := h
        simp [ih d s r hs]
    | Operator c =>
      rw [splitBracket] at h
      cases hs : splitBracket ts d with
      | none => simp [hs] at h
      | some p =>
        obtain ⟨s, r⟩ := p
        simp only [hs, Option.some.injEq, Prod.mk.injEq] at h
        obtain ⟨rfl, rfl⟩ := h
        simp [ih d s r hs]
    | LeftParen =>
      rw [splitBracket] at h
      cases hs : splitBracket ts (d + 1) with
      | none => simp [hs] at h
      | some p =>
        obtain ⟨s, r⟩ := p
        simp only [hs, Option.some.injEq, Prod.mk.injEq] at h
        obtain ⟨rfl, rfl⟩ := h
        simp [ih (d + 1) s r hs]
    | RightParen =>
      rw [splitBracket] at h
      by_cases hd : d = 1
      · rw [if_pos hd] at h
        simp only [Option.some.injEq, Prod.mk.injEq] at h
        obtain ⟨rfl, rfl⟩ := h
        simp
      · rw [if_neg hd] at h
        cases hs : splitBracket ts (d - 1) with
        | none => simp [hs] at h
        | some p =>
          obtain ⟨s, r⟩ := p
          simp only [hs, Option.some.injEq, Prod.mk.injEq] at h
          obtain ⟨rfl, rfl⟩ := h
          simp [ih (d - 1) s r hs]

/-- Length consequence of `splitBracket_split`, used for termination. -/
def splitBracket_length : ∀ (ts : List ExprToken) (d : Nat)
    (sub after : List ExprToken), splitBracket ts d = some (sub, after) →
    sub.length + 1 + after.length = ts.length := by
  intro ts d sub after h
  have := splitBracket_split ts d sub after h
  subst this
  simp
  omega

/-- The epilogue of `evaluate_expression`: drain the operator stack, then
`values.pop().ok_or("表达式计算失败")` (src/main.rs lines 109–126). -/
def finishEval (values : List Int) (operators : List Char) : Res Int :=
  match drainOps values operators with
  | .ok (v :: _) => .ok v
  | .ok [] => .err "表达式计算失败"
  | .err e => .err e
  | .panic => .panic

/-- Embeds the main token loop of `evaluate_expression` (src/main.rs lines
42–127), carrying the value and operator stacks; a `LeftParen` recursively
evaluates the tokens strictly inside the matched pair and resumes after it. -/
def evalLoop : List ExprToken → List Int → List Char → Res Int
  | [], values, operators => finishEval values operators
  | ExprToken.Number n :: rest, values, operators =>
    evalLoop rest (n :: values) operators
  | ExprToken.Operator op :: rest, values, operators =>
    match reduceHigher values operators with
    | .ok (v, o) => evalLoop rest v (op :: o)
    | .err e => .err e
    | .panic => .panic
  | ExprToken.LeftParen :: rest, values, operators =>
    match h : splitBracket rest 1 with
    | none => .err "括号不匹配"
    | some (sub, after) =>
      match evalLoop sub [] [] with
      | .ok v => evalLoop after (v :: values) operators
      | .err e => .err e
      | .panic => .panic
  | ExprToken.RightParen :: _, _, _ => .err "多余的右括号"
termination_by ts _ _ => ts.length
decreasing_by
  all_goals simp only [List.length_cons]
  all_goals try omega
  all_goals have hsp : sub.length + 1 + after.length = rest.length :=
    splitBracket_length rest 1 sub after h
  all_goals omega

/-- Embeds `evaluate_expression` (src/main.rs lines 42–127). -/
def evaluate_expression (tokens : List ExprToken) : Res Int :=
  evalLoop tokens [] []

/-- Fuel-indexed variant of `evalLoop`: the recursion is modelled as a
step-counted computation that returns `none` when the fuel runs out. It is
structurally recursive on the fuel, so that termination of the real
evaluator can be stated as: a fuel bounded by the input length suffices. -/
def evalLoopFuel : Nat → List ExprToken → List Int → List Char → Option (Res Int)
  | 0, _, _, _ => none
  | _ + 1, [], values, operators => some (finishEval values operators)
  | fuel + 1, ExprToken.Number n :: rest, values, operators =>
    evalLoopFuel fuel rest (n :: values) operators
  | fuel + 1, ExprToken.Operator op :: rest, values, operators =>
    match reduceHigher values operators with
    | .ok (v, o) => evalLoopFuel fuel rest v (op :: o)
    | .err e => some (.err e)
    | .panic => some .panic
  | fuel + 1, ExprToken.LeftParen :: rest, values, operators =>
    match splitBracket rest 1 with
    | none => some (.err "括号不匹配")
    | some (sub, after) =>
      match evalLoopFuel fuel sub [] [] with
      | some (.ok v) => evalLoopFuel fuel after (v :: values) operators
      | some (.err e) => some (.err e)
      | some .panic => some .panic
      | none => none
  | _ + 1, ExprToken.RightParen :: _, _, _ => some (.err "多余的右括号")

/-! ## Helper lemmas -/

/-- Unfolding `evalLoop` on a `LeftParen` whose scan finds no match. -/
theorem evalLoop_leftParen_none (ts : List ExprToken) (values : List Int)
    (ops : List Char) (h : splitBracket ts 1 = none) :
    evalLoop (ExprToken.LeftParen :: ts) values ops = .err "括号不匹配" := by
  rw [evalLoop]
  split
  · rfl
  · rename_i heq
    rw [h] at heq
    cases heq

/-- Unfolding `evalLoop` on a `LeftParen` whose scan finds a match. -/
theorem evalLoop_leftParen_some (ts sub after : List ExprToken)
    (values : List Int) (ops : List Char)
    (h : splitBracket ts 1 = some (sub, after)) :
    evalLoop (ExprToken.LeftParen :: ts) values ops =
      match evalLoop sub [] [] with
      | .ok v => evalLoop after (v :: values) ops
      | .err e => .err e
      | .panic => .panic := by
  rw [evalLoop]
  split
  · rename_i heq
    rw [h] at heq
    cases heq
  · rename_i sub2 after2 heq
    rw [h] at heq
    injection heq with heq
    injection heq with heq1 heq2
    subst heq1
    subst heq2
    rfl

/-- The in-pass reduction loop never pops a `'+'`: the returned operator
stack keeps every `'+'` of the input stack. -/
theorem reduceHigher_plus_count (ops : List Char) :
    ∀ (values v' : List Int) (ops' : List Char),
      reduceHigher values ops = .ok (v', ops') →
      ops'.count '+' = ops.count '+' := by
  induction ops with
  | nil =>
    intro values v' ops' h
    rw [reduceHigher] at h
    simp only [Res.ok.injEq, Prod.mk.injEq] at h
    obtain ⟨-, rfl⟩ := h
    rfl
  | cons op rest ih =>
    intro values v' ops' h
    match values with
    | [] =>
      rw [reduceHigher] at h
      by_cases hop : op = 'x' ∨ op = '/'
      · rw [if_pos hop] at h
        cases h
      · rw [if_neg hop] at h
        simp only [Res.ok.injEq, Prod.mk.injEq] at h
        obtain ⟨-, rfl⟩ := h
        rfl
    | [x] =>
      rw [reduceHigher] at h
      by_cases hop : op = 'x' ∨ op = '/'
      · rw [if_pos hop] at h
        cases h
      · rw [if_neg hop] at h
        simp only [Res.ok.injEq, Prod.mk.injEq] at h
        obtain ⟨-, rfl⟩ := h
        rfl
    | right :: left :: vrest =>
      rw [reduceHigher] at h
      by_cases hop : op = 'x' ∨ op = '/'
      · have hne : '+' ≠ op := by
          rcases hop with rfl | rfl <;> decide
        rw [if_pos hop] at h
        cases ha : applyHigh op left right with
        | ok r =>
          simp only [ha] at h
          have hcount := ih (r :: vrest) v' ops' h
          simp [List.count_cons, hcount, beq_iff_eq, hne]
        | err e => simp [ha] at h
        | panic => simp [ha] at h
      · rw [if_neg hop] at h
        simp only [Res.ok.injEq, Prod.mk.injEq] at h
        obtain ⟨-, rfl⟩ := h
        rfl

/-- Wrapping absorbs an already-wrapped left summand. -/
theorem wrap64_add_left (a b : Int) : wrap64 (wrap64 a + b) = wrap64 (a + b) := by
  unfold wrap64
  omega

/-- Wrapping absorbs an already-wrapped right summand. -/
theorem wrap64_add_right (a b : Int) : wrap64 (a + wrap64 b) = wrap64 (a + b) := by
  unfold wrap64
  omega

/-- Wrapping `i64` addition is associative. -/
theorem i64add_assoc (a b c : Int) : i64add a (i64add b c) = i64add (i64add a b) c := by
  unfold i64add
  rw [wrap64_add_right, wrap64_add_left, Int.add_assoc]

/-- Any fuel strictly larger than the input length makes the fuel-indexed
loop agree with the total evaluator. -/
theorem evalLoopFuel_complete (fuel : Nat) :
    ∀ (ts : List ExprToken) (values : List Int) (ops : List Char),
      ts.length < fuel →
      evalLoopFuel fuel ts values ops = some (evalLoop ts values ops) := by
  induction fuel with
  | zero =>
    intro ts values ops h
    exact absurd h (by omega)
  | succ fuel ih =>
    intro ts values ops h
    match ts with
    | [] => rw [evalLoopFuel, evalLoop]
    | ExprToken.Number n :: rest =>
      rw [evalLoopFuel, evalLoop]
      exact ih rest (n :: values) ops (by simp at h; omega)
    | ExprToken.Operator op :: rest =>
      rw [evalLoopFuel, evalLoop]
      cases hr : reduceHigher values ops with
      | ok p =>
        obtain ⟨v, o⟩ := p
        simp only [hr]
        exact ih rest v (op :: o) (by simp at h; omega)
      | err e => simp [hr]
      | panic => simp [hr]
    | ExprToken.LeftParen :: rest =>
      rw [evalLoopFuel]
      cases hs : splitBracket rest 1 with
      | none =>
        rw [evalLoop_leftParen_none rest values ops hs]
      | some p =>
        obtain ⟨sub, after⟩ := p
        have hlen := splitBracket_length rest 1 sub after hs
        have hrest : rest.length < fuel := by simp at h; omega
        rw [evalLoop_leftParen_some rest sub after values ops hs]
        dsimp only
        rw [ih sub [] [] (by omega)]
        cases he : evalLoop sub [] [] with
        | ok v =>
          exact ih after (v :: values) ops (by omega)
        | err e => rfl
        | panic => rfl
    | ExprToken.RightParen :: rest =>
      rw [evalLoopFuel, evalLoop]

/-! ## Claims -/

/-- C1: multiplication and division bind tighter than addition. The in-pass
reduction never pops a `'+'` (the returned operator stack keeps every
`'+'`), it pops the right operand first (so with a single stacked value the
missing operand is the left one), and
`evaluate([3, '+', 4, 'x', 2]) = Ok(11)`. -/
theorem claim1_higher_precedence_first (values v' : List Int)
    (ops ops' : List Char) (h : reduceHigher values ops = .ok (v', ops')) :
    ops'.count '+' = ops.count '+'
    ∧ reduceHigher [5] ['x'] = .err "缺少左操作数"
    ∧ evaluate_expression [.Number 3, .Operator '+', .Number 4, .Operator 'x',
        .Number 2] = .ok 11 := by
  refine ⟨reduceHigher_plus_count ops values v' ops' h, by decide, ?_⟩
  simp [evaluate_expression, evalLoop, finishEval, reduceHigher, drainOps,
    applyHigh, applyOp, i64div, i64mul, i64add, wrap64]

/-- Witness for C1 at `values = [2, 4, 3]`, `ops = ['x', '+']`. -/
theorem claim1_higher_precedence_first_witness :
    (['+'] : List Char).count '+' = (['x', '+'] : List Char).count '+'
    ∧ reduceHigher [5] ['x'] = .err "缺少左操作数"
    ∧ evaluate_expression [.Number 3, .Operator '+', .Number 4, .Operator 'x',
        .Number 2] = .ok 11 :=
  claim1_higher_precedence_first [2, 4, 3] [8, 3] ['x', '+'] ['+'] (by decide)

/-- C2: a successful bracket scan splits the tokens as the strict
sub-sequence before the matching `RightParen` and the tokens after it
(which the evaluator resumes on), and brackets override precedence:
`evaluate([LeftBracket, 3, '+', 4, RightBracket, 'x', 2]) = Ok(14)`. -/
theorem claim2_brackets_override (ts sub after : List ExprToken) (d : Nat)
    (h : splitBracket ts d = some (sub, after)) :
    ts = sub ++ ExprToken.RightParen :: after
    ∧ evaluate_expression [.LeftParen, .Number 3, .Operator '+', .Number 4,
        .RightParen, .Operator 'x', .Number 2] = .ok 14 := by
  refine ⟨splitBracket_split ts d sub after h, ?_⟩
  simp [evaluate_expression, evalLoop, finishEval, splitBracket, reduceHigher,
    drainOps, applyHigh, applyOp, i64div, i64mul, i64add, wrap64]

/-- Witness for C2 at `ts = [RightParen]`, depth 1. -/
theorem claim2_brackets_override_witness :
    ([ExprToken.RightParen] : List ExprToken) = [] ++ ExprToken.RightParen :: []
    ∧ evaluate_expression [.LeftParen, .Number 3, .Operator '+', .Number 4,
        .RightParen, .Operator 'x', .Number 2] = .ok 14 :=
  claim2_brackets_override [ExprToken.RightParen] [] [] 1 (by decide)

/-- C3 counterexample: the claim's clause "for nonzero divisors division is
integer division truncating toward zero" fails at `i64::MIN / -1`, where the
code panics instead of producing the truncated quotient. -/
theorem claim3_counterexample :
    evaluate_expression [.Number i64Min, .Operator '/', .Number (-1)]
      ≠ .ok (Int.tdiv i64Min (-1)) := by
  simp [evaluate_expression, evalLoop, finishEval, reduceHigher, drainOps,
    applyHigh, applyOp, i64div, i64Min]

/-- C3 (amended): whenever a division operator is applied — in the in-pass
reduction (`applyHigh`) or in the final drain (`applyOp`) — with right
operand 0, the result is the division-by-zero error, and
`evaluate([6, '/', 0])` fails with it; for nonzero divisors other than the
overflow pair `(i64::MIN, -1)` division truncates toward zero. -/
theorem claim3_div_by_zero_caught (l left right : Int) (hr : right ≠ 0)
    (hov : ¬(left = i64Min ∧ right = -1)) :
    applyHigh '/' l 0 = .err "除零错误"
    ∧ applyOp '/' l 0 = .err "除零错误"
    ∧ evaluate_expression [.Number 6, .Operator '/', .Number 0] = .err "除零错误"
    ∧ applyHigh '/' left right = .ok (Int.tdiv left right)
    ∧ applyOp '/' left right = .ok (Int.tdiv left right) := by
  refine ⟨by simp [applyHigh], by simp [applyOp], ?_, ?_, ?_⟩
  · simp [evaluate_expression, evalLoop, finishEval, reduceHigher, drainOps,
      applyHigh, applyOp, i64div]
  · simp [applyHigh, i64div, hr, hov]
  · simp [applyOp, i64div, hr, hov]

/-- Witness for C3 at `l = -5`, `left = 7`, `right = 2`. -/
theorem claim3_div_by_zero_caught_witness :
    applyHigh '/' (-5) 0 = .err "除零错误"
    ∧ applyOp '/' (-5) 0 = .err "除零错误"
    ∧ evaluate_expression [.Number 6, .Operator '/', .Number 0] = .err "除零错误"
    ∧ applyHigh '/' 7 2 = .ok (Int.tdiv 7 2)
    ∧ applyOp '/' 7 2 = .ok (Int.tdiv 7 2) :=
  claim3_div_by_zero_caught (-5) 7 2 (by decide) (by decide)

/-- C4: the tokenizer's total case analysis. `0x`/`0b` prefixes parse the
remainder in base 16/2, other strings parse in base 10 (whole-string,
partial matches rejected), the five exact symbol strings map to their
tokens, and every other string is an invalid-token error; in particular
`tokenize("0x1A") = Number(26)`, `tokenize("0b101") = Number(5)`,
`tokenize("7") = Number(7)`. -/
theorem claim4_tokenizer_cases (s : List Char) (h1 : parse_number s = none)
    (h2 : ¬(s = ['+'] ∨ s = ['x'] ∨ s = ['/'])) (h3 : s ≠ ['['])
    (h4 : s ≠ [']']) :
    parse_expression_token "0x1A".data = .ok (.Number 26)
    ∧ parse_expression_token "0b101".data = .ok (.Number 5)
    ∧ parse_expression_token "7".data = .ok (.Number 7)
    ∧ parse_expression_token "+".data = .ok (.Operator '+')
    ∧ parse_expression_token "x".data = .ok (.Operator 'x')
    ∧ parse_expression_token "/".data = .ok (.Operator '/')
    ∧ parse_expression_token "[".data = .ok .LeftParen
    ∧ parse_expression_token "]".data = .ok .RightParen
    ∧ parse_expression_token "7a".data = .error "无效的表达式部分: 7a"
    ∧ parse_expression_token "0x".data = .error "无效的表达式部分: 0x"
    ∧ parse_expression_token s = .error ("无效的表达式部分: " ++ String.mk s) := by
  refine ⟨rfl, rfl, rfl, rfl, rfl, rfl, rfl, rfl, rfl, rfl, ?_⟩
  simp [parse_expression_token, h1, h2, h3, h4]

/-- Witness for C4 at `s = "abc"`. -/
theorem claim4_tokenizer_cases_witness :
    parse_expression_token "0x1A".data = .ok (.Number 26)
    ∧ parse_expression_token "0b101".data = .ok (.Number 5)
    ∧ parse_expression_token "7".data = .ok (.Number 7)
    ∧ parse_expression_token "+".data = .ok (.Operator '+')
    ∧ parse_expression_token "x".data = .ok (.Operator 'x')
    ∧ parse_expression_token "/".data = .ok (.Operator '/')
    ∧ parse_expression_token "[".data = .ok .LeftParen
    ∧ parse_expression_token "]".data = .ok .RightParen
    ∧ parse_expression_token "7a".data = .error "无效的表达式部分: 7a"
    ∧ parse_expression_token "0x".data = .error "无效的表达式部分: 0x"
    ∧ parse_expression_token "abc".data
      = .error ("无效的表达式部分: " ++ String.mk "abc".data) :=
  claim4_tokenizer_cases "abc".data rfl (by decide) (by decide) (by decide)

/-- C5 (refuting the no-crash claim): Rust `i64` division overflows and
panics at `i64::MIN / -1` in every build profile, so `evaluate_expression`
crashes the process on this user input instead of returning a `Result`. -/
theorem claim5_no_panic_refuted :
    evaluate_expression [.Number i64Min, .Operator '/', .Number (-1)] = .panic := by
  simp [evaluate_expression, evalLoop, finishEval, reduceHigher, drainOps,
    applyHigh, applyOp, i64div, i64Min]

/-- C6 counterexample: at `a = i64::MIN`, `b = -1`, `c = 1` (with `b`, `c`
nonzero), `evaluate([a, '/', b, '/', c])` panics rather than returning
`Ok((a/b)/c)`. -/
theorem claim6_counterexample :
    evaluate_expression [.Number i64Min, .Operator '/', .Number (-1),
      .Operator '/', .Number 1] ≠ .ok ((Int.tdiv i64Min (-1)).tdiv 1) := by
  simp [evaluate_expression, evalLoop, finishEval, reduceHigher, drainOps,
    applyHigh, applyOp, i64div, i64Min]

/-- C6 (amended): equal-precedence operators associate left-to-right for
all `i64` inputs whose divisions do not hit the overflow pair
`(i64::MIN, -1)`: `evaluate([a, '/', b, '/', c]) = Ok((a/b)/c)` with
truncating division, and `evaluate([a, '+', b, '+', c]) = Ok((a+b)+c)` with
wrapping `i64` addition — even though the final drain resolves the
remaining operators most-recently-pushed first. -/
theorem claim6_left_assoc (a b c : Int) (ha : In64 a) (hb : In64 b)
    (hc : In64 c) (hb0 : b ≠ 0) (hc0 : c ≠ 0)
    (hov1 : ¬(a = i64Min ∧ b = -1))
    (hov2 : ¬(Int.tdiv a b = i64Min ∧ c = -1)) :
    evaluate_expression [.Number a, .Operator '/', .Number b, .Operator '/',
      .Number c] = .ok ((Int.tdiv a b).tdiv c)
    ∧ evaluate_expression [.Number a, .Operator '+', .Number b, .Operator '+',
      .Number c] = .ok (i64add (i64add a b) c) := by
  constructor
  · simp [evaluate_expression, evalLoop, finishEval, reduceHigher, drainOps,
      applyHigh, applyOp, i64div, hb0, hc0, hov1, hov2]
  · have hassoc := i64add_assoc a b c
    simp [evaluate_expression, evalLoop, finishEval, reduceHigher, drainOps,
      applyHigh, applyOp, hassoc]

/-- Witness for C6 at `a = 7`, `b = 2`, `c = 3`. -/
theorem claim6_left_assoc_witness :
    evaluate_expression [.Number 7, .Operator '/', .Number 2, .Operator '/',
      .Number 3] = .ok ((Int.tdiv 7 2).tdiv 3)
    ∧ evaluate_expression [.Number 7, .Operator '+', .Number 2, .Operator '+',
      .Number 3] = .ok (i64add (i64add 7 2) 3) :=
  claim6_left_assoc 7 2 3 (by decide) (by decide) (by decide) (by decide)
    (by decide) (by decide) (by decide)

/-- C7: a `LeftBracket` whose scan runs off the end of the sequence fails
with the unbalanced-brackets error (in particular on
`[LeftBracket, 1, '+', 2]`), and a `RightBracket` reached by the main loop
(outside any bracket scan) fails with the unmatched-right-bracket error. -/
theorem claim7_bracket_errors (ts rest : List ExprToken) (values : List Int)
    (ops : List Char) (h : splitBracket ts 1 = none) :
    evalLoop (ExprToken.LeftParen :: ts) values ops = .err "括号不匹配"
    ∧ evalLoop (ExprToken.RightParen :: rest) values ops = .err "多余的右括号"
    ∧ evaluate_expression [.LeftParen, .Number 1, .Operator '+', .Number 2]
      = .err "括号不匹配" := by
  refine ⟨evalLoop_leftParen_none ts values ops h, by rw [evalLoop], ?_⟩
  simp [evaluate_expression, evalLoop, finishEval, splitBracket, reduceHigher,
    drainOps]

/-- Witness for C7 at the empty tail. -/
theorem claim7_bracket_errors_witness :
    evalLoop [ExprToken.LeftParen] [] [] = .err "括号不匹配"
    ∧ evalLoop [ExprToken.RightParen] [] [] = .err "多余的右括号"
    ∧ evaluate_expression [.LeftParen, .Number 1, .Operator '+', .Number 2]
      = .err "括号不匹配" :=
  claim7_bracket_errors [] [] [] [] (by decide)

/-- C8: an expression that yields no value fails with the empty-expression
error: the empty token sequence fails with it, and a bracket pair enclosing
an empty sub-sequence makes the recursive call fail with it, which
propagates to the overall result (for any continuation and stacks). -/
theorem claim8_empty_expression (rest : List ExprToken) (values : List Int)
    (ops : List Char) :
    evaluate_expression [] = .err "表达式计算失败"
    ∧ evaluate_expression [.LeftParen, .RightParen] = .err "表达式计算失败"
    ∧ evalLoop (ExprToken.LeftParen :: ExprToken.RightParen :: rest) values ops
      = .err "表达式计算失败" := by
  refine ⟨by simp [evaluate_expression, evalLoop, finishEval, drainOps], ?_, ?_⟩
  · simp [evaluate_expression, evalLoop, finishEval, splitBracket, drainOps]
  · simp [evalLoop, splitBracket, finishEval, drainOps]

/-- C9: when more than one value remains after the drain, the evaluator
silently returns the most recently pushed value:
`evaluate([Number a, Number b]) = Ok(b)` for all `a`, `b`, in particular
`evaluate([Number 1, Number 2]) = Ok(2)`. -/
theorem claim9_two_values_returns_top (a b : Int) :
    evaluate_expression [.Number a, .Number b] = .ok b
    ∧ evaluate_expression [.Number 1, .Number 2] = .ok 2 := by
  constructor <;> simp [evaluate_expression, evalLoop, finishEval, drainOps]

/-- C10: evaluation always terminates, in time proportional to the input:
the fuel-indexed evaluator already converges with fuel one more than the
token count, and its value is the total evaluator's result. -/
theorem claim10_terminates (ts : List ExprToken) :
    evalLoopFuel (ts.length + 1) ts [] [] = some (evaluate_expression ts) :=
  evalLoopFuel_complete (ts.length + 1) ts [] [] (by omega)

end Enjoy
